import Mathlib

/-! Verification of the redirect-checker core (src/app.py): URL normalization,
the HEAD-then-GET fallback protocol of `check_redirect`, classification of
results, dispatch cardinality, and the broken-result filter.

The HTTP transport is modelled explicitly: each of the (at most two) requests
a check makes is given by an `Attempt` — either a response (final URL plus
status code, as `requests` presents them after following redirects) or a
raised `RequestException` with its message. `check_redirect` is then a pure
function of the pair and the two attempts, mirroring the Python line by line. -/

namespace RedirectChecker

/-! ### Configuration constants (src/app.py lines 15-16) -/

def TIMEOUT : Nat := 10
def MAX_WORKERS : Nat := 15

/-! ### Character-level models of the Python string primitives

ASCII model: `str.strip()` trims the ASCII whitespace characters
(space, tab, newline, vertical tab, form feed, carriage return) and
`str.lower()` lower-cases the letters A-Z, which is what `Char.toLower`
does. -/

def pyIsSpace (c : Char) : Bool :=
  c = ' ' || c = '\t' || c = '\n' || c = '\x0b' || c = '\x0c' || c = '\r'

def isSlash (c : Char) : Bool :=
  c = '/'

/-- `l` with its longest suffix of characters satisfying `p` removed: the
character-list model of Python `str.rstrip`. -/
def rstrip (p : Char → Bool) (l : List Char) : List Char :=
  (l.reverse.dropWhile p).reverse

/-- Python `str.strip()` with no argument: drop leading and trailing
whitespace. -/
def stripChars (l : List Char) : List Char :=
  rstrip pyIsSpace (l.dropWhile pyIsSpace)

/-- `normalize` (src/app.py lines 32-35): empty for falsy input (`None` is
modelled by `none`, and the only falsy string is `""`), otherwise
`url.strip().lower().rstrip("/")`. -/
def normalize (url : Option String) : String :=
  match url with
  | none => ""
  | some s =>
    if s = "" then ""
    else ⟨rstrip isSlash ((stripChars s.data).map Char.toLower)⟩

/-- Python `str.startswith` for a single pattern string. -/
def startswith (s p : String) : Bool :=
  p.data.isPrefixOf s.data

/-! ### The transport model and `check_redirect` -/

/-- One HTTP response as the checker sees it: `response.url` (the final URL
after following redirects) and `response.status_code`. -/
structure Resp where
  url : String
  status_code : Int
deriving DecidableEq

/-- Outcome of one `requests.head` / `requests.get` call: a response, or a
raised `requests.exceptions.RequestException` rendered as a message. -/
inductive Attempt where
  | ok (r : Resp)
  | exn (e : String)
deriving DecidableEq

/-- The tuple `check_redirect` returns:
`(source, target, status string, final_url)` (src/app.py lines 38-45). -/
structure CheckResult where
  source : String
  target : String
  status : String
  finalUrl : Option String
deriving DecidableEq

/-- Lines 37-42: classification of the (possibly fallback) status and final
URL into one of the three status strings carrying a final URL. -/
def classifyBody (source target : String) (status : Int) (final_url : String) :
    CheckResult :=
  if status ≥ 400 then
    ⟨source, target, "❌ HTTP Fehler " ++ toString status, some final_url⟩
  else if normalize (some final_url) ≠ normalize (some target) then
    ⟨source, target, "⚠️ Falsche Weiterleitung (→ " ++ final_url ++ ")",
      some final_url⟩
  else
    ⟨source, target, "✅ Korrekt weitergeleitet", some final_url⟩

/-- `check_redirect` (src/app.py lines 18-45). `headA` is what the HEAD
request to `source` does; `getA` what the fallback GET would do. A raised
exception in either lands in the `except` branch of line 44. -/
def check_redirect (source target : String) (headA getA : Attempt) :
    CheckResult :=
  match headA with
  | .exn e => ⟨source, target, "❌ Fehler: " ++ e, none⟩
  | .ok r0 =>
    if r0.status_code ≥ 400 ∨ r0.status_code = 0 then
      match getA with
      | .exn e => ⟨source, target, "❌ Fehler: " ++ e, none⟩
      | .ok r1 => classifyBody source target r1.status_code r1.url
    else
      classifyBody source target r0.status_code r0.url

/-! ### Derived notions used by the spec's claims -/

/-- The spec's result kinds. -/
inductive StatusKind where
  | ok
  | wrongDestination
  | httpError
  | transportError
deriving DecidableEq

/-- The kind a status string encodes, read off its emoji/text prefix —
exactly the string-prefix tagging the source uses to build (lines 38, 40,
42, 45) and filter (line 85) results. -/
def kindOfStatus (st : String) : StatusKind :=
  if startswith st "✅" then .ok
  else if startswith st "⚠️" then .wrongDestination
  else if startswith st "❌ HTTP Fehler" then .httpError
  else .transportError

/-- The spec's `statusKind` of a result. -/
def statusKind (r : CheckResult) : StatusKind :=
  kindOfStatus r.status

/-- Which HTTP request was issued. -/
inductive Method where
  | head
  | get
deriving DecidableEq

/-- The requests `check_redirect` issues for one pair, in order: always the
HEAD to `source`; the fallback GET to `source` exactly when the HEAD returned
a response with status ≥ 400 or 0.  A request that raises was still issued,
and a HEAD that raises jumps to the handler, skipping the GET. -/
def requestTrace (source : String) (headA : Attempt) : List (Method × String) :=
  match headA with
  | .exn _ => [(.head, source)]
  | .ok r0 =>
    if r0.status_code ≥ 400 ∨ r0.status_code = 0 then
      [(.head, source), (.get, source)]
    else
      [(.head, source)]

/-- The response the classification of lines 37-42 sees, when any: HEAD's
response unless the fallback triggered, in which case GET's. `none` when the
run ends in the `except` branch. -/
def finalOutcome (headA getA : Attempt) : Option Resp :=
  match headA with
  | .exn _ => none
  | .ok r0 =>
    if r0.status_code ≥ 400 ∨ r0.status_code = 0 then
      match getA with
      | .exn _ => none
      | .ok r1 => some r1
    else some r0

/-- The dispatcher loop (src/app.py lines 69-77): one `check_redirect` per
submitted pair, results appended in completion order. `completionOrder` is
the order in which `as_completed` yields the futures — some permutation of
the input pairs — and `transport` gives each pair's (HEAD, GET) attempts. -/
def runDispatcher (completionOrder : List (String × String))
    (transport : String × String → Attempt × Attempt) : List CheckResult :=
  completionOrder.map fun p => check_redirect p.1 p.2 (transport p).1 (transport p).2

/-- Line 85's filter condition: `Status.str.startswith(("❌", "⚠️"))`. -/
def brokenPred (r : CheckResult) : Bool :=
  startswith r.status "❌" || startswith r.status "⚠️"

/-- `broken_df` (line 85): the result rows whose status string starts with
one of the two failure markers. -/
def broken (results : List CheckResult) : List CheckResult :=
  results.filter brokenPred

/-- A record that the checker can actually produce. -/
def isCheckOutput (r : CheckResult) : Prop :=
  ∃ s t hA gA, r = check_redirect s t hA gA

/-- The last character of `s`, if any, is not whitespace. -/
def noTrailingSpace (s : String) : Bool :=
  s.data.getLast?.all fun c => !(pyIsSpace c)

/-- The last character of `s`, if any, is not a slash. -/
def noTrailingSlash (s : String) : Bool :=
  s.data.getLast?.all fun c => !(isSlash c)

/-! ### Character facts -/

theorem toLower_eq (c : Char) :
    c.toLower = if c.toNat ≥ 65 ∧ c.toNat ≤ 90 then Char.ofNat (c.toNat + 32) else c :=
  rfl

theorem toNat_ofNat_add32 {n : Nat} (h1 : 65 ≤ n) (h2 : n ≤ 90) :
    (Char.ofNat (n + 32)).toNat = n + 32 := by
  interval_cases n <;> decide

theorem pyIsSpace_eq_false_of_le {d : Char} (hd : 47 ≤ d.toNat) :
    pyIsSpace d = false := by
  have h1 : d ≠ ' ' := by rintro rfl; revert hd; decide
  have h2 : d ≠ '\t' := by rintro rfl; revert hd; decide
  have h3 : d ≠ '\n' := by rintro rfl; revert hd; decide
  have h4 : d ≠ '\x0b' := by rintro rfl; revert hd; decide
  have h5 : d ≠ '\x0c' := by rintro rfl; revert hd; decide
  have h6 : d ≠ '\r' := by rintro rfl; revert hd; decide
  simp [pyIsSpace, h1, h2, h3, h4, h5, h6]

theorem isSlash_eq_false_of_toNat {d : Char} (hd : d.toNat ≠ 47) :
    isSlash d = false := by
  have h : d ≠ '/' := by rintro rfl; exact hd rfl
  simp [isSlash, h]

theorem pyIsSpace_toLower (c : Char) : pyIsSpace c.toLower = pyIsSpace c := by
  rw [toLower_eq]
  split_ifs with h
  · rw [pyIsSpace_eq_false_of_le (d := Char.ofNat (c.toNat + 32)),
      pyIsSpace_eq_false_of_le (by omega)]
    rw [toNat_ofNat_add32 h.1 h.2]; omega
  · rfl

theorem isSlash_toLower (c : Char) : isSlash c.toLower = isSlash c := by
  rw [toLower_eq]
  split_ifs with h
  · rw [isSlash_eq_false_of_toNat (d := Char.ofNat (c.toNat + 32)),
      isSlash_eq_false_of_toNat (by omega)]
    rw [toNat_ofNat_add32 h.1 h.2]; omega
  · rfl

theorem toLower_toLower (c : Char) : c.toLower.toLower = c.toLower := by
  by_cases h : c.toNat ≥ 65 ∧ c.toNat ≤ 90
  · rw [toLower_eq c, if_pos h, toLower_eq, if_neg]
    rw [toNat_ofNat_add32 h.1 h.2]; omega
  · rw [toLower_eq c, if_neg h, toLower_eq c, if_neg h]

/-! ### Facts about `rstrip`, `stripChars` and prefixes -/

theorem dropWhile_eq_self_of_head {p : Char → Bool} {l : List Char}
    (h : ∀ c, l.head? = some c → p c = false) : l.dropWhile p = l := by
  cases l with
  | nil => rfl
  | cons a as =>
    rw [List.dropWhile_cons_of_neg]
    simp [h a rfl]

theorem head?_dropWhile {p : Char → Bool} {l : List Char} {c : Char}
    (h : (l.dropWhile p).head? = some c) : p c = false := by
  have hx := List.head?_dropWhile_not p l
  rw [h] at hx
  exact hx

theorem rstrip_eq_self_of_getLast {p : Char → Bool} {l : List Char}
    (h : ∀ c, l.getLast? = some c → p c = false) : rstrip p l = l := by
  unfold rstrip
  rw [dropWhile_eq_self_of_head, List.reverse_reverse]
  intro c hc
  exact h c (by rwa [List.head?_reverse] at hc)

theorem getLast?_rstrip {p : Char → Bool} {l : List Char} {c : Char}
    (h : (rstrip p l).getLast? = some c) : p c = false := by
  unfold rstrip at h
  rw [List.getLast?_eq_head?_reverse, List.reverse_reverse] at h
  exact head?_dropWhile h

theorem rstrip_isPrefix (p : Char → Bool) (l : List Char) : rstrip p l <+: l := by
  obtain ⟨t, ht⟩ := List.dropWhile_suffix (l := l.reverse) p
  refine ⟨t.reverse, ?_⟩
  show (l.reverse.dropWhile p).reverse ++ t.reverse = l
  rw [← List.reverse_append, ht, List.reverse_reverse]

theorem rstrip_map_toLower (l : List Char) :
    rstrip isSlash (l.map Char.toLower) = (rstrip isSlash l).map Char.toLower := by
  have hfun : (isSlash ∘ Char.toLower) = isSlash := funext isSlash_toLower
  unfold rstrip
  rw [← List.map_reverse, List.dropWhile_map, hfun, List.map_reverse]

theorem exists_replicate_rstrip (l : List Char) :
    ∃ n, l = rstrip isSlash l ++ List.replicate n '/' := by
  refine ⟨(l.reverse.takeWhile isSlash).length, ?_⟩
  have hsplit := List.takeWhile_append_dropWhile (p := isSlash) (l := l.reverse)
  have hrep : (l.reverse.takeWhile isSlash).reverse
      = List.replicate (l.reverse.takeWhile isSlash).length '/' := by
    rw [← List.length_reverse]
    refine List.eq_replicate_length.mpr ?_
    intro b hb
    rw [List.mem_reverse] at hb
    have hp : isSlash b := List.mem_takeWhile_imp hb
    simpa [isSlash] using hp
  calc l = l.reverse.reverse := (List.reverse_reverse l).symm
    _ = (l.reverse.takeWhile isSlash ++ l.reverse.dropWhile isSlash).reverse := by
        rw [hsplit]
    _ = rstrip isSlash l ++ (l.reverse.takeWhile isSlash).reverse := by
        rw [List.reverse_append]; rfl
    _ = rstrip isSlash l ++ List.replicate (l.reverse.takeWhile isSlash).length '/' := by
        rw [hrep]

theorem head?_eq_of_isPrefix {l m : List Char} (h : l <+: m) (hne : l ≠ []) :
    m.head? = l.head? := by
  obtain ⟨t, rfl⟩ := h
  cases l with
  | nil => exact absurd rfl hne
  | cons a as => rfl

/-! ### The shape of `normalize` -/

theorem normalize_some_data (s : String) :
    (normalize (some s)).data
      = rstrip isSlash ((stripChars s.data).map Char.toLower) := by
  show (if s = "" then "" else
      (⟨rstrip isSlash ((stripChars s.data).map Char.toLower)⟩ : String)).data
    = rstrip isSlash ((stripChars s.data).map Char.toLower)
  split_ifs with h
  · subst h; rfl
  · rfl

theorem eq_empty_of_data_eq_nil {s : String} (h : s.data = []) : s = "" :=
  String.ext h

theorem stripChars_eq_self {l : List Char}
    (hhead : ∀ c, l.head? = some c → pyIsSpace c = false)
    (hlast : ∀ c, l.getLast? = some c → pyIsSpace c = false) :
    stripChars l = l := by
  unfold stripChars
  rw [dropWhile_eq_self_of_head hhead, rstrip_eq_self_of_getLast hlast]

/-- Head of a nonempty `stripChars` output is the head of the whitespace-dropped
list, hence not whitespace. -/
theorem head?_stripChars {l : List Char} {c : Char}
    (h : (stripChars l).head? = some c) : pyIsSpace c = false := by
  have hpre := rstrip_isPrefix pyIsSpace (l.dropWhile pyIsSpace)
  have hne : stripChars l ≠ [] := by
    intro hnil
    rw [stripChars] at hnil
    rw [stripChars, hnil] at h
    cases h
  have hh := head?_eq_of_isPrefix hpre hne
  apply head?_dropWhile (p := pyIsSpace) (l := l)
  rw [hh, ← stripChars, h]

/-- C2: `normalize` returns the empty string for absent or empty input; any
other input is trimmed of leading/trailing whitespace, lower-cased, and then
stripped of its entire maximal trailing run of `'/'` characters, in that
order: the stripped-and-lowered character list decomposes as the result
followed by a run of slashes, and the result itself never ends in a slash. -/
theorem normalize_contract :
    normalize none = "" ∧ normalize (some "") = "" ∧
    ∀ s : String,
      (normalize (some s)).data
          = rstrip isSlash ((stripChars s.data).map Char.toLower) ∧
      (∃ n, (stripChars s.data).map Char.toLower
          = (normalize (some s)).data ++ List.replicate n '/') ∧
      noTrailingSlash (normalize (some s)) = true := by
  refine ⟨rfl, rfl, fun s => ⟨normalize_some_data s, ?_, ?_⟩⟩
  · obtain ⟨n, hn⟩ := exists_replicate_rstrip ((stripChars s.data).map Char.toLower)
    exact ⟨n, by rw [normalize_some_data]; exact hn⟩
  · unfold noTrailingSlash
    rw [normalize_some_data]
    cases hg : (rstrip isSlash ((stripChars s.data).map Char.toLower)).getLast? with
    | none => rfl
    | some c => simp [getLast?_rstrip hg]

/-- C3 counterexample: `normalize` is not idempotent. On `"a /"` stripping the
trailing slash exposes a trailing space, which only a second application
removes: `normalize "a /" = "a "` but `normalize "a " = "a"`. -/
theorem normalize_not_idem_cex :
    normalize (some (normalize (some "a /"))) ≠ normalize (some "a /") := by
  decide

/-- C3 (amended): `normalize` is idempotent on every string whose
normalization does not end in a whitespace character.  (Removing trailing
slashes can expose trailing whitespace; idempotence fails exactly on such
inputs, e.g. `"a /"`.) -/
theorem normalize_idem_of_noTrailingSpace (x : String)
    (h : noTrailingSpace (normalize (some x)) = true) :
    normalize (some (normalize (some x))) = normalize (some x) := by
  by_cases hy : normalize (some x) = ""
  · rw [hy]; rfl
  · apply String.ext
    set y := normalize (some x) with hy_def
    have hd : y.data = rstrip isSlash ((stripChars x.data).map Char.toLower) :=
      normalize_some_data x
    have hdne : y.data ≠ [] := fun hnil => hy (eq_empty_of_data_eq_nil hnil)
    have hhead : ∀ c, y.data.head? = some c → pyIsSpace c = false := by
      intro c hc
      have hpre := rstrip_isPrefix isSlash ((stripChars x.data).map Char.toLower)
      rw [← hd] at hpre
      have hw := head?_eq_of_isPrefix hpre hdne
      rw [hc, List.head?_map] at hw
      cases hsc : (stripChars x.data).head? with
      | none => rw [hsc] at hw; cases hw
      | some c0 =>
        rw [hsc] at hw
        have hcc : Char.toLower c0 = c := Option.some.inj hw
        rw [← hcc, pyIsSpace_toLower]
        exact head?_stripChars hsc
    have hlast : ∀ c, y.data.getLast? = some c → pyIsSpace c = false := by
      intro c hc
      unfold noTrailingSpace at h
      rw [hc] at h
      simpa using h
    have hstrip : stripChars y.data = y.data := stripChars_eq_self hhead hlast
    have hlower : y.data.map Char.toLower = y.data := by
      have hcomm : y.data = (rstrip isSlash (stripChars x.data)).map Char.toLower := by
        rw [hd, rstrip_map_toLower]
      rw [hcomm, List.map_map]
      exact List.map_congr_left fun a _ => toLower_toLower a
    have hslash : rstrip isSlash y.data = y.data := by
      apply rstrip_eq_self_of_getLast
      intro c hc
      rw [hd] at hc
      exact getLast?_rstrip hc
    rw [normalize_some_data y, hstrip, hlower, hslash]

theorem normalize_idem_witness :
    normalize (some (normalize (some "  HTTPS://Example.COM/path//"))) =
      normalize (some "  HTTPS://Example.COM/path//") :=
  normalize_idem_of_noTrailingSpace "  HTTPS://Example.COM/path//" (by decide)

/-! ### Prefix reasoning on status strings -/

theorem isPrefixOf_append_of_pos {p a : List Char} (b : List Char)
    (h : p.isPrefixOf a = true) : p.isPrefixOf (a ++ b) = true := by
  induction p generalizing a with
  | nil => simp
  | cons c cs ih =>
    cases a with
    | nil => simp at h
    | cons d ds =>
      simp only [List.isPrefixOf_cons₂, Bool.and_eq_true] at h
      rw [List.cons_append, List.isPrefixOf_cons₂, h.1, Bool.true_and]
      exact ih h.2

theorem not_isPrefixOf_append {p a : List Char} (b : List Char)
    (h : (p.take a.length).isPrefixOf a = false) :
    p.isPrefixOf (a ++ b) = false := by
  induction p generalizing a with
  | nil => simp at h
  | cons c cs ih =>
    cases a with
    | nil => simp at h
    | cons d ds =>
      rw [List.length_cons, List.take_succ_cons, List.isPrefixOf_cons₂] at h
      rw [List.cons_append, List.isPrefixOf_cons₂]
      cases hcd : (c == d) with
      | false => simp [hcd]
      | true =>
        rw [hcd, Bool.true_and] at h
        rw [Bool.true_and]
        exact ih h

theorem startswith_append_pos (lit z p : String) (h : startswith lit p = true) :
    startswith (lit ++ z) p = true := by
  unfold startswith at h ⊢
  rw [String.data_append]
  exact isPrefixOf_append_of_pos _ h

theorem startswith_append_neg (lit z p : String)
    (h : (p.data.take lit.data.length).isPrefixOf lit.data = false) :
    startswith (lit ++ z) p = false := by
  unfold startswith
  rw [String.data_append]
  exact not_isPrefixOf_append _ h

/-! ### The kind and broken-filter value of each status string the checker
builds -/

theorem kindOfStatus_ok_str : kindOfStatus "✅ Korrekt weitergeleitet" = .ok := by
  decide

theorem kindOfStatus_http_str (z : String) :
    kindOfStatus ("❌ HTTP Fehler " ++ z) = .httpError := by
  unfold kindOfStatus
  rw [startswith_append_neg _ _ _ (by decide),
    startswith_append_neg _ _ _ (by decide),
    startswith_append_pos _ _ _ (by decide)]
  rfl

theorem kindOfStatus_wrong_str (u : String) :
    kindOfStatus ("⚠️ Falsche Weiterleitung (→ " ++ u ++ ")") = .wrongDestination := by
  unfold kindOfStatus
  rw [String.append_assoc]
  rw [startswith_append_neg _ _ _ (by decide),
    startswith_append_pos _ _ _ (by decide)]
  rfl

theorem kindOfStatus_transport_str (e : String) :
    kindOfStatus ("❌ Fehler: " ++ e) = .transportError := by
  unfold kindOfStatus
  rw [startswith_append_neg _ _ _ (by decide),
    startswith_append_neg _ _ _ (by decide),
    startswith_append_neg _ _ _ (by decide)]
  rfl

theorem brokenPred_ok_str (s t : String) (u : Option String) :
    brokenPred ⟨s, t, "✅ Korrekt weitergeleitet", u⟩ = false :=
  rfl

theorem brokenPred_http_str (s t z : String) (u : Option String) :
    brokenPred ⟨s, t, "❌ HTTP Fehler " ++ z, u⟩ = true := by
  unfold brokenPred
  rw [startswith_append_pos _ _ _ (by decide)]
  rfl

theorem brokenPred_wrong_str (s t w : String) (u : Option String) :
    brokenPred ⟨s, t, "⚠️ Falsche Weiterleitung (→ " ++ w ++ ")", u⟩ = true := by
  unfold brokenPred
  rw [String.append_assoc]
  rw [startswith_append_neg _ _ _ (by decide),
    startswith_append_pos _ _ _ (by decide)]
  rfl

theorem brokenPred_transport_str (s t e : String) (u : Option String) :
    brokenPred ⟨s, t, "❌ Fehler: " ++ e, u⟩ = true := by
  unfold brokenPred
  rw [startswith_append_pos _ _ _ (by decide)]
  rfl

theorem statusKind_mk (s t st : String) (u : Option String) :
    statusKind ⟨s, t, st, u⟩ = kindOfStatus st :=
  rfl

theorem statusKind_classifyBody (s t : String) (code : Int) (u : String) :
    statusKind (classifyBody s t code u) = .ok ↔
      code < 400 ∧ normalize (some u) = normalize (some t) := by
  unfold classifyBody
  split_ifs with h1 h2
  · rw [statusKind_mk, kindOfStatus_http_str]
    constructor
    · intro hk; cases hk
    · rintro ⟨hlt, -⟩; omega
  · rw [statusKind_mk, kindOfStatus_wrong_str]
    constructor
    · intro hk; cases hk
    · rintro ⟨-, he⟩; exact absurd he h2
  · rw [statusKind_mk, kindOfStatus_ok_str]
    exact ⟨fun _ => ⟨by omega, not_not.mp h2⟩, fun _ => rfl⟩

/-- C1: whenever a check obtains an HTTP status (no transport failure), the
result's kind is Ok iff the final status code — the GET's after a fallback —
is below 400 and the normalized final URL equals the normalized target. -/
theorem ok_iff_status_and_url (s t : String) (hA gA : Attempt) (r : Resp)
    (h : finalOutcome hA gA = some r) :
    statusKind (check_redirect s t hA gA) = .ok ↔
      r.status_code < 400 ∧ normalize (some r.url) = normalize (some t) := by
  cases hA with
  | exn e => simp [finalOutcome] at h
  | ok r0 =>
    by_cases hc : r0.status_code ≥ 400 ∨ r0.status_code = 0
    · cases gA with
      | exn e => simp [finalOutcome, hc] at h
      | ok r1 =>
        have hr : r1 = r := by simpa [finalOutcome, hc] using h
        subst hr
        simp only [check_redirect, hc, ite_true]
        exact statusKind_classifyBody s t r1.status_code r1.url
    · have hr : r0 = r := by simpa [finalOutcome, hc] using h
      subst hr
      simp only [check_redirect, hc, ite_false]
      exact statusKind_classifyBody s t r0.status_code r0.url

theorem ok_iff_status_and_url_witness :
    statusKind (check_redirect "http://old.ex/p" "http://new.ex/p"
          (Attempt.ok ⟨"http://NEW.ex/p/", 200⟩) (Attempt.exn "unused")) = StatusKind.ok ↔
      (200 : Int) < 400 ∧
        normalize (some "http://NEW.ex/p/") = normalize (some "http://new.ex/p") :=
  ok_iff_status_and_url "http://old.ex/p" "http://new.ex/p" _ _
    ⟨"http://NEW.ex/p/", 200⟩ (by decide)

/-- C4: a HEAD outcome with status ≥ 400 or the 0 sentinel triggers exactly
one fallback GET to the same source whose status and final URL replace the
HEAD's for classification; otherwise no GET is issued; in every case —
including a raising HEAD — at most two requests are made. -/
theorem fallback_protocol (s t : String) (r0 : Resp) (hA gA : Attempt) :
    ((r0.status_code ≥ 400 ∨ r0.status_code = 0) →
      requestTrace s (.ok r0) = [(Method.head, s), (Method.get, s)] ∧
      ∀ r1, gA = .ok r1 →
        check_redirect s t (.ok r0) gA = classifyBody s t r1.status_code r1.url) ∧
    (¬(r0.status_code ≥ 400 ∨ r0.status_code = 0) →
      requestTrace s (.ok r0) = [(Method.head, s)] ∧
      check_redirect s t (.ok r0) gA = classifyBody s t r0.status_code r0.url) ∧
    (requestTrace s hA).length ≤ 2 := by
  refine ⟨fun hc => ⟨?_, ?_⟩, fun hc => ⟨?_, ?_⟩, ?_⟩
  · simp [requestTrace, hc]
  · rintro r1 rfl
    simp [check_redirect, hc]
  · simp [requestTrace, hc]
  · simp [check_redirect, hc]
  · cases hA with
    | exn e => simp [requestTrace]
    | ok r =>
      simp only [requestTrace]
      split_ifs <;> simp

theorem fallback_protocol_witness :
    requestTrace "http://s" (Attempt.ok ⟨"http://u", 405⟩)
        = [(Method.head, "http://s"), (Method.get, "http://s")] ∧
      check_redirect "http://s" "http://t" (Attempt.ok ⟨"http://u", 405⟩)
          (Attempt.ok ⟨"http://v", 200⟩)
        = classifyBody "http://s" "http://t" (200 : Int) "http://v" := by
  have h := fallback_protocol "http://s" "http://t" ⟨"http://u", 405⟩
    (Attempt.exn "z") (Attempt.ok ⟨"http://v", 200⟩)
  obtain ⟨h1, -, -⟩ := h
  have h2 := h1 (by decide)
  exact ⟨h2.1, h2.2 ⟨"http://v", 200⟩ rfl⟩

/-- C5: when the transport fails before a status is obtained, the check still
returns a record: its kind is TransportError, its detail is the failure
description, and its final URL is absent. -/
theorem transport_failure_contained (s t : String) (hA gA : Attempt)
    (h : finalOutcome hA gA = none) :
    statusKind (check_redirect s t hA gA) = .transportError ∧
    (check_redirect s t hA gA).finalUrl = none ∧
    ∃ e, (check_redirect s t hA gA).status = "❌ Fehler: " ++ e := by
  cases hA with
  | exn e =>
    refine ⟨?_, rfl, e, rfl⟩
    simp only [check_redirect, statusKind_mk]
    exact kindOfStatus_transport_str e
  | ok r0 =>
    by_cases hc : r0.status_code ≥ 400 ∨ r0.status_code = 0
    · cases gA with
      | exn e =>
        refine ⟨?_, ?_, e, ?_⟩
        · simp only [check_redirect, hc, ite_true, statusKind_mk]
          exact kindOfStatus_transport_str e
        · simp [check_redirect, hc]
        · simp [check_redirect, hc]
      | ok r1 => simp [finalOutcome, hc] at h
    · simp [finalOutcome, hc] at h

theorem transport_failure_witness :
    statusKind (check_redirect "http://s" "http://t"
          (Attempt.exn "timeout") (Attempt.exn "x")) = StatusKind.transportError ∧
      (check_redirect "http://s" "http://t"
          (Attempt.exn "timeout") (Attempt.exn "x")).finalUrl = none ∧
      ∃ e, (check_redirect "http://s" "http://t"
          (Attempt.exn "timeout") (Attempt.exn "x")).status = "❌ Fehler: " ++ e :=
  transport_failure_contained "http://s" "http://t" _ _ rfl

/-- C6: the final URL is absent exactly on TransportError results; every Ok,
WrongDestination and HttpError result carries the resolved final URL. -/
theorem finalUrl_absent_iff_transport (s t : String) (hA gA : Attempt) :
    (check_redirect s t hA gA).finalUrl = none ↔
      statusKind (check_redirect s t hA gA) = .transportError := by
  have hcb : ∀ (code : Int) (u : String),
      (classifyBody s t code u).finalUrl = some u ∧
      statusKind (classifyBody s t code u) ≠ .transportError := by
    intro code u
    unfold classifyBody
    split_ifs with h1 h2
    · exact ⟨rfl, by rw [statusKind_mk, kindOfStatus_http_str]; intro hk; cases hk⟩
    · exact ⟨rfl, by rw [statusKind_mk, kindOfStatus_wrong_str]; intro hk; cases hk⟩
    · exact ⟨rfl, by rw [statusKind_mk, kindOfStatus_ok_str]; intro hk; cases hk⟩
  cases hA with
  | exn e =>
    constructor
    · intro _
      simp only [check_redirect, statusKind_mk]
      exact kindOfStatus_transport_str e
    · intro _
      rfl
  | ok r0 =>
    by_cases hc : r0.status_code ≥ 400 ∨ r0.status_code = 0
    · cases gA with
      | exn e =>
        constructor
        · intro _
          simp only [check_redirect, hc, ite_true, statusKind_mk]
          exact kindOfStatus_transport_str e
        · intro _
          simp [check_redirect, hc]
      | ok r1 =>
        obtain ⟨hu, hk⟩ := hcb r1.status_code r1.url
        simp only [check_redirect, hc, ite_true]
        constructor
        · intro hnone; rw [hu] at hnone; cases hnone
        · intro hkk; exact absurd hkk hk
    · obtain ⟨hu, hk⟩ := hcb r0.status_code r0.url
      simp only [check_redirect, hc, ite_false]
      constructor
      · intro hnone; rw [hu] at hnone; cases hnone
      · intro hkk; exact absurd hkk hk

/-- C10: every result, on every branch, carries the original source and
target strings unchanged. -/
theorem result_carries_pair (s t : String) (hA gA : Attempt) :
    (check_redirect s t hA gA).source = s ∧ (check_redirect s t hA gA).target = t := by
  have hcb : ∀ (code : Int) (u : String),
      (classifyBody s t code u).source = s ∧ (classifyBody s t code u).target = t := by
    intro code u
    unfold classifyBody
    split_ifs <;> exact ⟨rfl, rfl⟩
  cases hA with
  | exn e => exact ⟨rfl, rfl⟩
  | ok r0 =>
    by_cases hc : r0.status_code ≥ 400 ∨ r0.status_code = 0
    · cases gA with
      | exn e =>
        simp [check_redirect, hc]
      | ok r1 =>
        simp only [check_redirect, hc, ite_true]
        exact hcb r1.status_code r1.url
    · simp only [check_redirect, hc, ite_false]
      exact hcb r0.status_code r0.url

/-- C7: the dispatcher yields exactly one result per input pair — for any
completion order (a permutation of the N input pairs) the output has exactly
N records and is, record for record, a permutation of the results of checking
the pairs in input order. -/
theorem dispatcher_cardinality (pairs completionOrder : List (String × String))
    (transport : String × String → Attempt × Attempt)
    (h : completionOrder.Perm pairs) :
    (runDispatcher completionOrder transport).length = pairs.length ∧
    (runDispatcher completionOrder transport).Perm
      (runDispatcher pairs transport) := by
  constructor
  · unfold runDispatcher
    rw [List.length_map, h.length_eq]
  · exact h.map _

theorem dispatcher_cardinality_witness :
    (runDispatcher [("c", "d"), ("a", "b")]
        (fun _ => (Attempt.exn "e", Attempt.exn "e"))).length
        = ([("a", "b"), ("c", "d")] : List (String × String)).length ∧
      (runDispatcher [("c", "d"), ("a", "b")]
        (fun _ => (Attempt.exn "e", Attempt.exn "e"))).Perm
        (runDispatcher [("a", "b"), ("c", "d")]
          (fun _ => (Attempt.exn "e", Attempt.exn "e"))) :=
  dispatcher_cardinality [("a", "b"), ("c", "d")] [("c", "d"), ("a", "b")] _
    (List.Perm.swap ("a", "b") ("c", "d") [])

theorem brokenPred_check (s t : String) (hA gA : Attempt) :
    brokenPred (check_redirect s t hA gA)
      = decide (statusKind (check_redirect s t hA gA) ≠ StatusKind.ok) := by
  have hcb : ∀ (code : Int) (u : String),
      brokenPred (classifyBody s t code u)
        = decide (statusKind (classifyBody s t code u) ≠ StatusKind.ok) := by
    intro code u
    unfold classifyBody
    split_ifs with h1 h2
    · rw [brokenPred_http_str]
      simp only [statusKind_mk, kindOfStatus_http_str]
      rfl
    · rw [brokenPred_wrong_str]
      simp only [statusKind_mk, kindOfStatus_wrong_str]
      rfl
    · rw [brokenPred_ok_str]
      simp only [statusKind_mk, kindOfStatus_ok_str]
      rfl
  cases hA with
  | exn e =>
    simp only [check_redirect]
    rw [brokenPred_transport_str]
    simp only [statusKind_mk, kindOfStatus_transport_str]
    rfl
  | ok r0 =>
    by_cases hc : r0.status_code ≥ 400 ∨ r0.status_code = 0
    · cases gA with
      | exn e =>
        simp only [check_redirect, hc, ite_true]
        rw [brokenPred_transport_str]
        simp only [statusKind_mk, kindOfStatus_transport_str]
        rfl
      | ok r1 =>
        simp only [check_redirect, hc, ite_true]
        exact hcb r1.status_code r1.url
    · simp only [check_redirect, hc, ite_false]
      exact hcb r0.status_code r0.url

/-- C8: on checker-produced results, the broken partition is exactly the
records whose statusKind is not Ok — no Ok record is in it, every HttpError,
WrongDestination and TransportError record is. -/
theorem broken_iff_not_ok (results : List CheckResult)
    (h : ∀ r ∈ results, isCheckOutput r) :
    broken results
      = results.filter fun r => decide (statusKind r ≠ StatusKind.ok) := by
  unfold broken
  apply List.filter_congr
  intro r hr
  obtain ⟨s, t, hA, gA, rfl⟩ := h r hr
  exact brokenPred_check s t hA gA

theorem broken_iff_not_ok_witness :
    broken [check_redirect "s" "t" (Attempt.exn "boom") (Attempt.exn "x"),
        check_redirect "s" "http://t" (Attempt.ok ⟨"http://t", 200⟩) (Attempt.exn "x")]
      = List.filter (fun r => decide (statusKind r ≠ StatusKind.ok))
          [check_redirect "s" "t" (Attempt.exn "boom") (Attempt.exn "x"),
            check_redirect "s" "http://t" (Attempt.ok ⟨"http://t", 200⟩) (Attempt.exn "x")] :=
  broken_iff_not_ok _ (by
    intro r hr
    rcases List.mem_cons.mp hr with h1 | hr2
    · exact ⟨_, _, _, _, h1⟩
    · rcases List.mem_cons.mp hr2 with h2 | h3
      · exact ⟨_, _, _, _, h2⟩
      · cases h3)

end RedirectChecker
